import Mathlib

/-!
# Verification of the DE-9C form-filling script (`de9c_gui_updated.py`)

This file shallowly embeds the data model and the operations of
`de9c_gui_updated.py` and proves (or refutes) the frozen claims about it.

Modelling conventions:

* A CSV is modelled after `pandas.read_csv`'s view of the file: a header
  (list of column names) and rows of cells, where a cell is `Option String`
  and `none` models a missing value (pandas `NaN`, produced by an empty
  field).  `astype(str)` turns `NaN` into the string `"nan"`.
* Python `float` values reachable in this program are the results of
  `float(s)` on cleaned CSV cells and their sums, so they are either NaN or
  exact decimal numbers; they are modelled by `PyFloat`: NaN or an exact
  decimal `Dec` (an integer mantissa over a power-of-ten scale).  IEEE
  rounding is not modelled; the additive structure (including NaN
  propagation) is what the claims are about.  `float(s)` is modelled by
  `pyFloat?`, covering decimal literals with optional sign, fraction and
  exponent, and the "nan" spelling; `none` models a raised `ValueError`.
  (Infinity spellings and digit underscores are outside the modelled
  fragment; no claim involves them.)
* Fallible Python code is modelled with `Except String`; the string carries
  the kind of exception raised (`KeyError`, `ValueError`, `IndexError`).
* PDF pages: a template page is a list of form-field names (the `/T`
  entries of its annotations).  Filling writes `(name, value)` pairs in
  program order; the later rename step (pages after the first) only changes
  the `/T` names, so a filled page is recorded as the template names, the
  rename suffix, and the ordered list of writes keyed by the *original*
  field names.  Appearance streams (`AS`, `AP`, `NeedAppearances`) and the
  PDF trailer are presentation details with no bearing on any claim and are
  not modelled.
-/

/-- A CSV cell as seen by pandas: `none` is a missing value (`NaN`). -/
abbrev Cell := Option String

/-- A parsed CSV: header of column names, and rows of cells positionally
aligned with the header (a row shorter than the header reads as `NaN`s). -/
structure Csv where
  header : List String
  rows : List (List Cell)
deriving DecidableEq

/-- Model of `astype(str)` applied to one cell: pandas renders `NaN` as `"nan"`. -/
def cellToStr : Cell → String
  | none => "nan"
  | some s => s

/-- ASCII whitespace, the fragment of Python's `str.strip` / `float`
whitespace handling that this model covers. -/
def isSpace (c : Char) : Bool :=
  c = ' ' ∨ c = '\t' ∨ c = '\n' ∨ c = '\r' ∨ c = '\x0b' ∨ c = '\x0c'

/-- Strip leading and trailing whitespace from a character list. -/
def stripChars (cs : List Char) : List Char :=
  (((cs.dropWhile isSpace).reverse.dropWhile isSpace).reverse)

/-- Model of Python `str.strip()` (ASCII-whitespace fragment). -/
def pyStrip (s : String) : String :=
  String.mk (stripChars s.data)

/-- Model of `clean_money` from the source:
`str(x).replace("$", "").replace(",", "").strip()`.
Removing every occurrence of the one-character substrings `"$"` and `","`
is the same as filtering those characters out. -/
def clean_money (x : String) : String :=
  pyStrip (String.mk (x.data.filter (fun c => c ≠ '$' ∧ c ≠ ',')))

/-- Column lookup in a row, positionally aligned with the header.
`none`: the column does not exist (a `KeyError` in pandas);
`some cell`: the column exists and holds `cell` (missing trailing cells
read as `NaN`, as pandas pads short rows). -/
def getCell : List String → List Cell → String → Option Cell
  | [], _, _ => none
  | h :: hs, row, c =>
      if h = c then some (row.headD none) else getCell hs row.tail c

/-- The constant `ROWS_PER_PAGE = 7` from the source. -/
def ROWS_PER_PAGE : ℕ := 7

/-- An exact decimal number `num / 10 ^ scale`.  Every finite float this
program manipulates is of this shape. -/
structure Dec where
  num : ℤ
  scale : ℕ
deriving DecidableEq

namespace Dec

/-- Exact addition of decimals, aligning the scales. -/
def add (a b : Dec) : Dec :=
  let s := max a.scale b.scale
  ⟨a.num * 10 ^ (s - a.scale) + b.num * 10 ^ (s - b.scale), s⟩

/-- Negation of a decimal. -/
def neg (a : Dec) : Dec := ⟨-a.num, a.scale⟩

/-- Multiply a decimal by `10 ^ e` (the exponent of a float literal),
exactly. -/
def mulPow10 (a : Dec) : ℤ → Dec
  | Int.ofNat k => ⟨a.num * 10 ^ k, a.scale⟩
  | Int.negSucc k => ⟨a.num, a.scale + (k + 1)⟩

/-- Compute `round(a * 100)` with ties to even — the rounding used by Python's
fixed-point formatting, on the exact decimal value. -/
def round100HalfEven (a : Dec) : ℤ :=
  let p : ℤ := 10 ^ a.scale
  let n := a.num * 100
  let f := Int.fdiv n p
  let r := n - f * p
  if 2 * r < p then f
  else if 2 * r > p then f + 1
  else if f % 2 = 0 then f else f + 1

theorem addAssocDec (a b c : Dec) : (a.add b).add c = a.add (b.add c) := by
  unfold add
  simp only
  have hmax : max (max a.scale b.scale) c.scale
      = max a.scale (max b.scale c.scale) := max_assoc ..
  refine congrArg₂ Dec.mk ?_ hmax
  rw [← hmax]
  have e1 : (max a.scale b.scale - a.scale)
      + (max (max a.scale b.scale) c.scale - max a.scale b.scale)
      = max (max a.scale b.scale) c.scale - a.scale := by omega
  have e2 : (max a.scale b.scale - b.scale)
      + (max (max a.scale b.scale) c.scale - max a.scale b.scale)
      = max (max a.scale b.scale) c.scale - b.scale := by omega
  have e3 : (max b.scale c.scale - b.scale)
      + (max (max a.scale b.scale) c.scale - max b.scale c.scale)
      = max (max a.scale b.scale) c.scale - b.scale := by omega
  have e4 : (max b.scale c.scale - c.scale)
      + (max (max a.scale b.scale) c.scale - max b.scale c.scale)
      = max (max a.scale b.scale) c.scale - c.scale := by omega
  simp only [add_mul, mul_assoc, ← pow_add, e1, e2, e3, e4]
  ring

theorem addComm (a b : Dec) : a.add b = b.add a := by
  unfold add
  simp only
  refine congrArg₂ Dec.mk ?_ (max_comm ..)
  rw [max_comm b.scale a.scale]
  ring

end Dec

/-- A Python float as far as this program exercises it: NaN or an exact
decimal value. -/
inductive PyFloat where
  | nan : PyFloat
  | val : Dec → PyFloat
deriving DecidableEq

namespace PyFloat

/-- The float `0.0` (the initial value of every accumulator in the
source). -/
def zero : PyFloat := val ⟨0, 0⟩

/-- Addition of Python floats: NaN is absorbing; finite values add
exactly. -/
def add : PyFloat → PyFloat → PyFloat
  | nan, _ => nan
  | _, nan => nan
  | val a, val b => val (a.add b)

/-- Negation of a Python float. -/
def neg : PyFloat → PyFloat
  | nan => nan
  | val a => val a.neg

/-- The sum of a list of Python floats, used as the specification-side
"sum of the per-page subtotals". -/
def sum (l : List PyFloat) : PyFloat := l.foldr add zero

theorem addAssocPy (a b c : PyFloat) : add (add a b) c = add a (add b c) := by
  cases a <;> cases b <;> cases c <;> simp [add, Dec.addAssocDec]

theorem foldl_add_eq_sum (l : List PyFloat) (acc : PyFloat) :
    l.foldl add acc = add acc (sum l) := by
  induction l generalizing acc with
  | nil => cases acc <;> simp [sum, zero, add, Dec.add]
  | cons x l ih =>
      rw [List.foldl_cons, ih, addAssocPy]
      simp [sum]

end PyFloat

/-- The numeric value of a list of decimal digit characters. -/
def natOfDigits (cs : List Char) : ℕ :=
  cs.foldl (fun a c => a * 10 + (c.toNat - 48)) 0

/-- Parse the exponent part of a float literal (after the `e`/`E`):
an optional sign followed by at least one digit. -/
def parseExp (cs : List Char) : Option ℤ :=
  match cs with
  | '+' :: ds =>
      if ds ≠ [] ∧ ds.all Char.isDigit then some (natOfDigits ds) else none
  | '-' :: ds =>
      if ds ≠ [] ∧ ds.all Char.isDigit then some (-(natOfDigits ds : ℤ)) else none
  | ds =>
      if ds ≠ [] ∧ ds.all Char.isDigit then some (natOfDigits ds) else none

/-- Parse the mantissa of a float literal: digits with an optional decimal
point, at least one digit overall.  Returns the value and the rest. -/
def parseMantissa (cs : List Char) : Option (Dec × List Char) :=
  let ip := cs.takeWhile Char.isDigit
  let r1 := cs.dropWhile Char.isDigit
  match r1 with
  | '.' :: r2 =>
      let fp := r2.takeWhile Char.isDigit
      let r3 := r2.dropWhile Char.isDigit
      if ip.isEmpty && fp.isEmpty then none
      else some (⟨(natOfDigits ip : ℤ) * 10 ^ fp.length + (natOfDigits fp : ℤ),
                  fp.length⟩, r3)
  | _ => if ip.isEmpty then none else some (⟨(natOfDigits ip : ℤ), 0⟩, r1)

/-- The body of `float(s)` after sign handling: either a `"nan"` spelling
(case-insensitive) or a decimal literal with optional exponent. -/
def pyFloatBody (cs : List Char) : Option PyFloat :=
  if cs.map Char.toLower = ['n', 'a', 'n'] then some .nan
  else
    match parseMantissa cs with
    | none => none
    | some (m, []) => some (.val m)
    | some (m, e :: r) =>
        if e = 'e' ∨ e = 'E' then
          (parseExp r).map (fun ex => PyFloat.val (m.mulPow10 ex))
        else none

/-- Model of Python `float(s)`: strips surrounding whitespace, handles an
optional sign, then parses the body.  `none` models a raised
`ValueError`. -/
def pyFloat? (s : String) : Option PyFloat :=
  match stripChars s.data with
  | '+' :: r => pyFloatBody r
  | '-' :: r => (pyFloatBody r).map PyFloat.neg
  | r => pyFloatBody r

/-- Model of the f-string `f"{x:.2f}"`: NaN prints as `"nan"`; a finite
value prints with exactly two decimals, rounding ties to even; the sign
is the sign of the value (so small negatives print as `-0.00`). -/
def fmt2 : PyFloat → String
  | .nan => "nan"
  | .val d =>
      let m := d.round100HalfEven.natAbs
      (if d.num < 0 then "-" else "") ++ toString (m / 100) ++ "." ++
        (if m % 100 < 10 then "0" else "") ++ toString (m % 100)

example : pyFloat? "10.00" = some (.val ⟨1000, 2⟩) := by decide
example : pyFloat? "nan" = some .nan := by decide
example : pyFloat? "oops" = none := by decide
example : pyFloat? "" = none := by decide
example : pyFloat? "-1.5e1" = some (.val ⟨-150, 1⟩) := by decide
example : pyFloat? " 7 " = some (.val ⟨7, 0⟩) := by decide
example : pyFloat? "2.5e-1" = some (.val ⟨25, 2⟩) := by decide
example : clean_money "$1,234.56" = "1234.56" := by decide
example : fmt2 (.val ⟨123456, 2⟩) = "1234.56" := by decide
example : fmt2 (.val ⟨12345, 3⟩) = "12.34" := by decide
example : fmt2 .nan = "nan" := by decide
example : fmt2 (.val ⟨0, 0⟩) = "0.00" := by decide
example : fmt2 (.val ⟨-5, 3⟩) = "-0.00" := by decide

/-- An employee record, as stored in the `employees` list of `fill_de9c`
(lines 110–128).  All seven entries are rendered as strings; the three
monetary entries have already passed through `clean_money`
(lines 106–107), and the middle name through the NaN/strip handling of
lines 112–116. -/
structure Employee where
  ssn : String
  first : String
  mi : String
  last : String
  wages : String
  pitWages : String
  withheld : String
deriving DecidableEq

/-- Model of `suffix_for_row` from the source: row 1 maps to the empty suffix,
row `i > 1` to the decimal rendering of `i - 1`. -/
def suffix_for_row (i : ℕ) : String :=
  if i = 1 then "" else toString (i - 1)

/-- The base field names of `FIELD_MAP` (lines 133–141).  In the source
each value is a pattern ending in a suffix placeholder, so the physical
field name is the base followed by `suffix_for_row r`. -/
def fieldBases : List String :=
  ["SSN", "First Name", "MI", "Last Name",
   "Total Subject Wages", "PIT Wages", "PIT Withheld"]

/-- The money columns cleaned at lines 106–107, in program order. -/
def moneyCols : List String :=
  ["Total Subject Wages", "PIT Wages", "PIT Withheld"]

/-- Lines 106–107: `df[col] = df[col].astype(str).map(clean_money)` reads
each money column, so a missing one raises a `KeyError` before any row is
processed (even on an empty CSV). -/
def checkMoneyCols (h : List String) : Except String Unit :=
  if "Total Subject Wages" ∉ h then .error "KeyError: Total Subject Wages"
  else if "PIT Wages" ∉ h then .error "KeyError: PIT Wages"
  else if "PIT Withheld" ∉ h then .error "KeyError: PIT Withheld"
  else .ok ()

/-- Lines 112–116: `row.get("Middle Name", "")` (no error if the column is
absent), then `pd.isna` maps NaN to `""`, otherwise `str(...).strip()`. -/
def middleValue (h : List String) (row : List Cell) : String :=
  match getCell h row "Middle Name" with
  | none => ""
  | some none => ""
  | some (some s) => pyStrip s

/-- Reading `row[c]` for a required column: a missing column raises
`KeyError` (lines 120–126). -/
def reqCell (h : List String) (row : List Cell) (c : String) :
    Except String Cell :=
  match getCell h row c with
  | none => .error ("KeyError: " ++ c)
  | some cell => .ok cell

/-- Build one employee record from a CSV row (lines 111–128).  The money
cells carry the cleaning of lines 106–107 (`astype(str)` then
`clean_money`); the other cells are rendered by `str` at field-writing
time (line 233), folded in here once and for all. -/
def buildEmployee (h : List String) (row : List Cell) :
    Except String Employee :=
  match reqCell h row "SSN" with
  | .error e => .error e
  | .ok ssn =>
  match reqCell h row "First Name" with
  | .error e => .error e
  | .ok first =>
  match reqCell h row "Last Name" with
  | .error e => .error e
  | .ok last =>
  match reqCell h row "Total Subject Wages" with
  | .error e => .error e
  | .ok w =>
  match reqCell h row "PIT Wages" with
  | .error e => .error e
  | .ok pw =>
  match reqCell h row "PIT Withheld" with
  | .error e => .error e
  | .ok wh =>
    .ok ⟨cellToStr ssn, cellToStr first, middleValue h row, cellToStr last,
         clean_money (cellToStr w), clean_money (cellToStr pw),
         clean_money (cellToStr wh)⟩

/-- Effectful map over a list in `Except`, stopping at the first error —
the behaviour of the `for _, row in df.iterrows()` loop. -/
def exceptMap (f : α → Except String β) : List α → Except String (List β)
  | [] => .ok []
  | x :: xs =>
      match f x with
      | .error e => .error e
      | .ok y =>
          match exceptMap f xs with
          | .error e => .error e
          | .ok ys => .ok (y :: ys)

/-- Lines 103–128: load the CSV, clean the money columns (raising on a
missing money column), then build the employee list (raising on a missing
required name column). -/
def buildEmployees (csv : Csv) : Except String (List Employee) :=
  match checkMoneyCols csv.header with
  | .error e => .error e
  | .ok _ => exceptMap (buildEmployee csv.header) csv.rows

/-- Line 131: `num_pages = math.ceil(num_employees / ROWS_PER_PAGE)`. -/
def numPages (n : ℕ) : ℕ := (n + (ROWS_PER_PAGE - 1)) / ROWS_PER_PAGE

/-- The employees of page `i` (0-based): line 154,
`employees[start : start + ROWS_PER_PAGE]`. -/
def chunkAt (emps : List Employee) (i : ℕ) : List Employee :=
  (emps.drop (i * ROWS_PER_PAGE)).take ROWS_PER_PAGE

/-- Model of `quarter_months` from the source (lines 40–50): quarters 1–4 map to
their month triples, anything else raises `ValueError`. -/
def quarter_months (q : ℤ) : Except String (ℕ × ℕ × ℕ) :=
  if q = 1 then .ok (1, 2, 3)
  else if q = 2 then .ok (4, 5, 6)
  else if q = 3 then .ok (7, 8, 9)
  else if q = 4 then .ok (10, 11, 12)
  else .error "Quarter must be 1–4"

/-- Python `s[-2:]`: the last two characters (the whole string when it is
shorter). -/
def last2 (s : String) : String :=
  String.mk (s.data.drop (s.data.length - 2))

/-- Model of `f"{m:02d}"`: two digits, zero-padded. -/
def two_digit (m : ℕ) : String :=
  (if m < 10 then "0" else "") ++ toString m

/-- Model of `calc_quarter_end` from the source (lines 27–37). -/
def calc_quarter_end (year_full : ℤ) (q : ℤ) : Except String String :=
  let yy := last2 (toString year_full)
  if q = 1 then .ok ("03/31/" ++ yy)
  else if q = 2 then .ok ("06/30/" ++ yy)
  else if q = 3 then .ok ("09/30/" ++ yy)
  else if q = 4 then .ok ("12/31/" ++ yy)
  else .error "Quarter must be 1–4"

/-- Model of `float(x or "0")` folded with the `try`/`except` of lines 215–228:
an empty string counts as `"0"`; a parse failure leaves the accumulator
unchanged; otherwise the parsed value is added (NaN propagates). -/
def addMoney (acc : PyFloat) (s : String) : PyFloat :=
  match pyFloat? (if s = "" then "0" else s) with
  | none => acc
  | some v => acc.add v

/-- The value `page_w`: the subject-wages subtotal of a page (lines 200, 215–218). -/
def pageW (page_emps : List Employee) : PyFloat :=
  (page_emps.map (·.wages)).foldl addMoney PyFloat.zero

/-- The value `page_p`: the PIT-wages subtotal of a page (lines 200, 220–223). -/
def pageP (page_emps : List Employee) : PyFloat :=
  (page_emps.map (·.pitWages)).foldl addMoney PyFloat.zero

/-- The value `page_h`: the PIT-withheld subtotal of a page (lines 200, 225–228). -/
def pageH (page_emps : List Employee) : PyFloat :=
  (page_emps.map (·.withheld)).foldl addMoney PyFloat.zero

/-- The inputs of `fill_de9c` (line 98–100): the parsed CSV, the names of
the form fields on the template page, and the header/signature
parameters. -/
structure FillInput where
  csv : Csv
  templateNames : List String
  year_full : ℤ
  quarter : ℤ
  acct : String
  quarter_end : String
  sig_name : String
  sig_title : String
  sig_phone : String
  sig_date : String
deriving DecidableEq

/-- A conditional field write: the source only writes a field when its
name is present in the template's `lookup` dictionary
(`if fname in lookup: ...`). -/
def condWrite (tpl : List String) (n v : String) : List (String × String) :=
  if n ∈ tpl then [(n, v)] else []

/-- A block of conditional field writes, in the order of the given
name/value pairs. -/
def condWrites (tpl : List String) : List (String × String) →
    List (String × String)
  | [] => []
  | nv :: rest => condWrite tpl nv.1 nv.2 ++ condWrites tpl rest

/-- The header name/value pairs of one page (lines 161–197), in program
order. -/
def headerPairs (inp : FillInput) (months : ℕ × ℕ × ℕ)
    (numPg pageIdx : ℕ) : List (String × String) :=
  [("Year", last2 (toString inp.year_full)),
   ("Quarter", toString inp.quarter),
   ("Employer Account No", inp.acct),
   ("Date1", inp.quarter_end),
   ("Date2", inp.quarter_end),
   ("1st Month", two_digit months.1),
   ("2nd Month", two_digit months.2.1),
   ("3rd Month", two_digit months.2.2),
   ("Page number", toString (pageIdx + 1)),
   ("Of Page number", toString numPg)]

/-- The header writes of one page (lines 161–197). -/
def headerWrites (inp : FillInput) (months : ℕ × ℕ × ℕ)
    (numPg pageIdx : ℕ) : List (String × String) :=
  condWrites inp.templateNames (headerPairs inp months numPg pageIdx)

/-- The name/value pairs of the seven per-row fields for one employee at
row position `r` (1-based), lines 202–233: each `FIELD_MAP` base with the
row suffix appended, in the insertion order of the `data` dictionary. -/
def rowPairs (r : ℕ) (e : Employee) : List (String × String) :=
  [("SSN" ++ suffix_for_row r, e.ssn),
   ("First Name" ++ suffix_for_row r, e.first),
   ("MI" ++ suffix_for_row r, e.mi),
   ("Last Name" ++ suffix_for_row r, e.last),
   ("Total Subject Wages" ++ suffix_for_row r, e.wages),
   ("PIT Wages" ++ suffix_for_row r, e.pitWages),
   ("PIT Withheld" ++ suffix_for_row r, e.withheld)]

/-- The writes of the seven per-row fields (lines 230–233). -/
def rowWrites (tpl : List String) (r : ℕ) (e : Employee) :
    List (String × String) :=
  condWrites tpl (rowPairs r e)

/-- All row writes of a page: `enumerate(page_emps, start=1)` with `r0`
the position of the first listed employee. -/
def rowsWrites (tpl : List String) (r0 : ℕ) :
    List Employee → List (String × String)
  | [] => []
  | e :: es => rowWrites tpl r0 e ++ rowsWrites tpl (r0 + 1) es

/-- The pairs clearing one blank row (lines 238–241): every `FIELD_MAP`
base with the row suffix, set to the empty string. -/
def clearPairs (r : ℕ) : List (String × String) :=
  fieldBases.map (fun b => (b ++ suffix_for_row r, ""))

/-- Lines 236–241: clear rows `k+1 .. ROWS_PER_PAGE` (for `k` employees
on the page), writing `""` to each present per-row field. -/
def clearWrites (tpl : List String) (k : ℕ) : List (String × String) :=
  ((List.range' (k + 1) (ROWS_PER_PAGE - k)).map (fun r =>
    condWrites tpl (clearPairs r))).flatten

/-- The per-page subtotal pairs (lines 254–269). -/
def pageTotalPairs (pw pp ph : PyFloat) : List (String × String) :=
  [("Total Subject Wages This Page", fmt2 pw),
   ("Total PIT Wages This Page", fmt2 pp),
   ("Total PIT Withheld This Page", fmt2 ph)]

/-- Lines 254–269: the three per-page subtotal writes. -/
def pageTotalWrites (tpl : List String) (pw pp ph : PyFloat) :
    List (String × String) :=
  condWrites tpl (pageTotalPairs pw pp ph)

/-- The rename suffix appended to every field name of page `k` (1-based),
for `k ≥ 2`: lines 245–252. -/
def pageTag (k : ℕ) : String := "__p" ++ toString k

/-- One filled output page.  `writes` is keyed by the *original* template
field names: the rename step only changes the `/T` names of the
annotations, and the `lookup` dictionary (and hence every write, including
the page-total writes that happen after the rename) still reaches the
annotation through its original name. -/
structure Page where
  templateNames : List String
  renameSuffix : String
  writes : List (String × String)
deriving DecidableEq

/-- The final `/T` names of the page's fields. -/
def Page.fieldNames (p : Page) : List String :=
  p.templateNames.map (fun n => n ++ p.renameSuffix)

/-- The last value written to a field (by original name), `none` if the
field was never written.  Each `lookup[fname].update(PdfDict(V=...))`
overwrites the previous value, so a later write takes precedence over an
earlier one. -/
def lastVal : List (String × String) → String → Option String
  | [], _ => none
  | kv :: ws, n =>
      (lastVal ws n).elim (if kv.1 = n then some kv.2 else none) some

/-- The final value of a field of a page, by original template name. -/
def Page.value (p : Page) (n : String) : Option String :=
  lastVal p.writes n

/-- Fill one page (the body of the loop at lines 152–275): header writes,
row writes, blank-row clears, rename (pages after the first), page-total
writes. -/
def mkPage (inp : FillInput) (months : ℕ × ℕ × ℕ) (numPg pageIdx : ℕ)
    (page_emps : List Employee) : Page :=
  { templateNames := inp.templateNames
    renameSuffix := if pageIdx = 0 then "" else pageTag (pageIdx + 1)
    writes :=
      headerWrites inp months numPg pageIdx
        ++ rowsWrites inp.templateNames 1 page_emps
        ++ clearWrites inp.templateNames page_emps.length
        ++ pageTotalWrites inp.templateNames
             (pageW page_emps) (pageP page_emps) (pageH page_emps) }

/-- All pages of the output (the loop at lines 152–275). -/
def mkPages (inp : FillInput) (months : ℕ × ℕ × ℕ)
    (emps : List Employee) : List Page :=
  (List.range (numPages emps.length)).map (fun i =>
    mkPage inp months (numPages emps.length) i (chunkAt emps i))

/-- The value `grand_w`: accumulated across the page loop (line 271), i.e. the left
fold of the page subtotals. -/
def grandW (emps : List Employee) : PyFloat :=
  ((List.range (numPages emps.length)).map (fun i =>
    pageW (chunkAt emps i))).foldl PyFloat.add PyFloat.zero

/-- The value `grand_p` (line 272). -/
def grandP (emps : List Employee) : PyFloat :=
  ((List.range (numPages emps.length)).map (fun i =>
    pageP (chunkAt emps i))).foldl PyFloat.add PyFloat.zero

/-- The value `grand_h` (line 273). -/
def grandH (emps : List Employee) : PyFloat :=
  ((List.range (numPages emps.length)).map (fun i =>
    pageH (chunkAt emps i))).foldl PyFloat.add PyFloat.zero

/-- The grand-total pairs (lines 283–298). -/
def grandPairs (emps : List Employee) : List (String × String) :=
  [("Grand Total Subject Wages", fmt2 (grandW emps)),
   ("Grand Total PIT Wages", fmt2 (grandP emps)),
   ("Grand Total PIT Withheld", fmt2 (grandH emps))]

/-- Lines 283–298: the three grand-total writes on the first page. -/
def grandWrites (tpl : List String) (emps : List Employee) :
    List (String × String) :=
  condWrites tpl (grandPairs emps)

/-- The signature-block pairs (lines 305–314), in the insertion order of
the `sig_map` dictionary. -/
def sigPairs (inp : FillInput) : List (String × String) :=
  [("Signature1", inp.sig_name), ("0", inp.sig_title),
   ("Phone Number", inp.sig_phone), ("Date5", inp.sig_date)]

/-- Lines 305–314: the signature-block writes on the first page. -/
def sigWrites (inp : FillInput) : List (String × String) :=
  condWrites inp.templateNames (sigPairs inp)

/-- Lines 277–314: `first_reader = filled_pages[0]` raises `IndexError`
when no page was built; otherwise the grand totals and the signature
block are written onto the first page (after everything else on it). -/
def finalize (inp : FillInput) (emps : List Employee) :
    List Page → Except String (List Page)
  | [] => .error "IndexError: list index out of range"
  | p :: rest =>
      .ok ({ p with
              writes := p.writes ++ grandWrites inp.templateNames emps
                          ++ sigWrites inp } :: rest)

/-- Model of `fill_de9c` (lines 98–331): build the employee list from the CSV,
resolve the quarter's months, fill every page, then write grand totals
and signature on the first page.  The merge-and-write step (lines
322–331) emits the pages unchanged and is not modelled further. -/
def fill_de9c (inp : FillInput) : Except String (List Page) :=
  match buildEmployees inp.csv with
  | .error e => .error e
  | .ok emps =>
      match quarter_months inp.quarter with
      | .error e => .error e
      | .ok months => finalize inp emps (mkPages inp months emps)

/-- The built-in defaults of `load_defaults` (lines 59–66), as the ordered
key-value list of the Python dict. -/
def builtinDefaults : List (String × String) :=
  [("year", "2024"), ("quarter", "2"), ("employer_account", "14503726"),
   ("signature_name", "EDUARDO b PEREZ"), ("signature_title", "PRESIDENT"),
   ("signature_phone", "818-618-1851")]

/-- Model of `dict.update`: replace the value of an existing key in place, append
a new key at the end. -/
def dictUpdate (d upd : List (String × String)) : List (String × String) :=
  upd.foldl (fun acc kv =>
    if acc.any (fun kv2 => kv2.1 = kv.1)
    then acc.map (fun kv2 => if kv2.1 = kv.1 then (kv2.1, kv.2) else kv2)
    else acc ++ [kv]) d

/-- Model of `load_defaults` (lines 57–75).  The file system outcome is the input:
`none` — no settings file (`os.path.isfile` false); `some none` — the file
exists but reading, JSON-parsing or dict-updating raises (all inside the
`try`); `some (some kvs)` — the file parses to the JSON object `kvs`.
The function is total: every failure falls back to the built-in
defaults. -/
def load_defaults : Option (Option (List (String × String))) →
    List (String × String)
  | none => builtinDefaults
  | some none => builtinDefaults
  | some (some kvs) => dictUpdate builtinDefaults kvs

example : quarter_months 2 = .ok (4, 5, 6) := rfl
example : quarter_months 0 = .error "Quarter must be 1–4" := rfl
example : calc_quarter_end 2024 2 = .ok "06/30/24" := rfl
example : suffix_for_row 1 = "" := by decide
example : suffix_for_row 3 = "2" := by decide
example : numPages 0 = 0 := by decide
example : numPages 8 = 2 := by decide

/-- The CSV columns the script requires (spec §6); `Middle Name` is
optional (line 112 uses `row.get` with a default). -/
def requiredCols : List String :=
  ["SSN", "First Name", "Last Name",
   "Total Subject Wages", "PIT Wages", "PIT Withheld"]

theorem lastVal_append (xs ys : List (String × String)) (n : String) :
    lastVal (xs ++ ys) n = (lastVal ys n).elim (lastVal xs n) some := by
  induction xs with
  | nil => cases h : lastVal ys n <;> simp [lastVal, h]
  | cons kv xs ih =>
      simp only [List.cons_append, lastVal, List.append_eq]
      rw [ih]
      cases h : lastVal ys n <;> cases h2 : lastVal xs n <;> simp [h, h2]

theorem lastVal_eq_none {ws : List (String × String)} {n : String}
    (h : ∀ kv ∈ ws, kv.1 ≠ n) : lastVal ws n = none := by
  induction ws with
  | nil => rfl
  | cons kv ws ih =>
      have hk : kv.1 ≠ n := h kv (by simp)
      have ht : lastVal ws n = none := ih (fun kv2 h2 => h kv2 (by simp [h2]))
      simp [lastVal, ht, hk]

theorem lastVal_mem {ws : List (String × String)} {n v : String}
    (h : lastVal ws n = some v) : (n, v) ∈ ws := by
  induction ws with
  | nil => simp [lastVal] at h
  | cons kv ws ih =>
      simp only [lastVal] at h
      cases h2 : lastVal ws n with
      | some w =>
          rw [h2] at h
          simp only [Option.elim_some] at h
          exact List.mem_cons_of_mem _ (ih (h2.trans h))
      | none =>
          rw [h2] at h
          simp only [Option.elim_none] at h
          by_cases hk : kv.1 = n
          · rw [if_pos hk] at h
            obtain ⟨k2, v2⟩ := kv
            simp only at hk
            simp only [Option.some.injEq] at h
            simp [hk, ← h]
          · rw [if_neg hk] at h
            simp at h

theorem lastVal_isSome {ws : List (String × String)} {n : String}
    (h : ∃ kv ∈ ws, kv.1 = n) : ∃ v, lastVal ws n = some v := by
  induction ws with
  | nil => simp at h
  | cons kv ws ih =>
      simp only [lastVal]
      cases h2 : lastVal ws n with
      | some w => simp [h2]
      | none =>
          obtain ⟨kv2, hmem, hname⟩ := h
          rcases List.mem_cons.mp hmem with rfl | htail
          · exact ⟨kv2.2, by simp [h2, Option.elim_none, if_pos hname]⟩
          · obtain ⟨v, hv⟩ := ih ⟨kv2, htail, hname⟩
            rw [h2] at hv
            simp at hv

theorem mem_condWrite {tpl : List String} {n v : String}
    {kv : String × String} (h : kv ∈ condWrite tpl n v) :
    kv = (n, v) ∧ n ∈ tpl := by
  unfold condWrite at h
  split at h
  · simp only [List.mem_singleton] at h
    exact ⟨h, by assumption⟩
  · simp at h

theorem lastVal_condWrite (tpl : List String) (n v t : String) :
    lastVal (condWrite tpl n v) t
      = if n = t ∧ n ∈ tpl then some v else none := by
  unfold condWrite
  by_cases he : n = t
  · subst he
    by_cases hm : n ∈ tpl <;> simp [lastVal, hm]
  · by_cases hm : n ∈ tpl <;> simp [lastVal, hm, he]

theorem exceptMap_ok {α β : Type} (f : α → Except String β) (l : List α)
    (h : ∀ x ∈ l, ∃ y, f x = .ok y) :
    ∃ ys, exceptMap f l = .ok ys ∧ ys.length = l.length := by
  induction l with
  | nil => exact ⟨[], rfl, rfl⟩
  | cons x xs ih =>
      obtain ⟨y, hy⟩ := h x (by simp)
      obtain ⟨ys, hys, hlen⟩ := ih (fun x2 h2 => h x2 (by simp [h2]))
      refine ⟨y :: ys, ?_, by simp [hlen]⟩
      simp [exceptMap, hy, hys]

theorem exceptMap_length {α β : Type} {f : α → Except String β}
    {l : List α} {ys : List β} (h : exceptMap f l = .ok ys) :
    ys.length = l.length := by
  induction l generalizing ys with
  | nil =>
      simp only [exceptMap] at h
      cases h
      rfl
  | cons x xs ih =>
      simp only [exceptMap] at h
      cases hx : f x with
      | error e => rw [hx] at h; simp at h
      | ok y =>
          rw [hx] at h
          cases hxs : exceptMap f xs with
          | error e => rw [hxs] at h; simp at h
          | ok ys2 =>
              rw [hxs] at h
              simp only [Except.ok.injEq] at h
              cases h
              simp [ih hxs]

theorem getCell_isSome {h : List String} {c : String} (row : List Cell)
    (hc : c ∈ h) : ∃ cell, getCell h row c = some cell := by
  induction h generalizing row with
  | nil => simp at hc
  | cons x hs ih =>
      by_cases hx : x = c
      · exact ⟨row.headD none, by simp [getCell, hx]⟩
      · rcases List.mem_cons.mp hc with rfl | htail
        · exact absurd rfl hx
        · obtain ⟨cell, hcell⟩ := ih row.tail htail
          exact ⟨cell, by simp [getCell, hx, hcell]⟩

theorem reqCell_ok {h : List String} {c : String} (row : List Cell)
    (hc : c ∈ h) : ∃ cell, reqCell h row c = .ok cell := by
  obtain ⟨cell, hcell⟩ := getCell_isSome row hc
  exact ⟨cell, by simp [reqCell, hcell]⟩

theorem buildEmployee_ok {h : List String} (row : List Cell)
    (hcols : ∀ c ∈ requiredCols, c ∈ h) :
    ∃ e, buildEmployee h row = .ok e := by
  obtain ⟨c1, h1⟩ := reqCell_ok (c := "SSN") row (hcols _ (by simp [requiredCols]))
  obtain ⟨c2, h2⟩ := reqCell_ok (c := "First Name") row (hcols _ (by simp [requiredCols]))
  obtain ⟨c3, h3⟩ := reqCell_ok (c := "Last Name") row (hcols _ (by simp [requiredCols]))
  obtain ⟨c4, h4⟩ := reqCell_ok (c := "Total Subject Wages") row (hcols _ (by simp [requiredCols]))
  obtain ⟨c5, h5⟩ := reqCell_ok (c := "PIT Wages") row (hcols _ (by simp [requiredCols]))
  obtain ⟨c6, h6⟩ := reqCell_ok (c := "PIT Withheld") row (hcols _ (by simp [requiredCols]))
  refine ⟨⟨cellToStr c1, cellToStr c2, middleValue h row, cellToStr c3,
           clean_money (cellToStr c4), clean_money (cellToStr c5),
           clean_money (cellToStr c6)⟩, ?_⟩
  simp [buildEmployee, h1, h2, h3, h4, h5, h6]

theorem checkMoneyCols_ok {h : List String}
    (hcols : ∀ c ∈ requiredCols, c ∈ h) : checkMoneyCols h = .ok () := by
  have m1 : "Total Subject Wages" ∈ h := hcols _ (by simp [requiredCols])
  have m2 : "PIT Wages" ∈ h := hcols _ (by simp [requiredCols])
  have m3 : "PIT Withheld" ∈ h := hcols _ (by simp [requiredCols])
  simp [checkMoneyCols, m1, m2, m3]

theorem buildEmployees_ok {csv : Csv}
    (hcols : ∀ c ∈ requiredCols, c ∈ csv.header) :
    ∃ emps, buildEmployees csv = .ok emps
      ∧ emps.length = csv.rows.length := by
  obtain ⟨emps, hemps, hlen⟩ :=
    exceptMap_ok (buildEmployee csv.header) csv.rows
      (fun row _ => buildEmployee_ok row hcols)
  exact ⟨emps, by simp [buildEmployees, checkMoneyCols_ok hcols, hemps],
         hlen⟩

theorem quarter_months_ok {q : ℤ}
    (hq : q = 1 ∨ q = 2 ∨ q = 3 ∨ q = 4) :
    ∃ ms, quarter_months q = .ok ms := by
  rcases hq with rfl | rfl | rfl | rfl <;> exact ⟨_, rfl⟩

/-- The first output page after `finalize`: the page built for index 0
with the grand-total and signature writes appended. -/
def headPage (inp : FillInput) (months : ℕ × ℕ × ℕ)
    (emps : List Employee) : Page :=
  let p := mkPage inp months (numPages emps.length) 0 (chunkAt emps 0)
  { p with writes := p.writes ++ grandWrites inp.templateNames emps
                        ++ sigWrites inp }

theorem mkPages_length (inp : FillInput) (months : ℕ × ℕ × ℕ)
    (emps : List Employee) :
    (mkPages inp months emps).length = numPages emps.length := by
  simp [mkPages]

theorem mkPages_get (inp : FillInput) (months : ℕ × ℕ × ℕ)
    (emps : List Employee) (i : ℕ) (hi : i < numPages emps.length) :
    (mkPages inp months emps)[i]?
      = some (mkPage inp months (numPages emps.length) i (chunkAt emps i)) := by
  simp [mkPages, List.getElem?_map, List.getElem?_range, hi]

/-- From a successful run, recover the employee list, the months, and the
shape of the output: the first built page augmented with the grand-total
and signature writes, followed by the remaining built pages unchanged. -/
theorem fill_inv {inp : FillInput} {pages : List Page}
    (h : fill_de9c inp = .ok pages) :
    ∃ emps months, buildEmployees inp.csv = .ok emps
      ∧ quarter_months inp.quarter = .ok months
      ∧ 0 < numPages emps.length
      ∧ pages.length = numPages emps.length
      ∧ pages[0]? = some (headPage inp months emps)
      ∧ ∀ i, 1 ≤ i → i < numPages emps.length →
          pages[i]? = some (mkPage inp months (numPages emps.length) i
                              (chunkAt emps i)) := by
  unfold fill_de9c at h
  split at h
  · simp at h
  · rename_i emps hb
    split at h
    · simp at h
    · rename_i months hq
      unfold finalize at h
      split at h
      · simp at h
      · rename_i p rest hL
        simp only [Except.ok.injEq] at h
        have hlen := mkPages_length inp months emps
        rw [hL] at hlen
        simp only [List.length_cons] at hlen
        have hpos : 0 < numPages emps.length := by omega
        have hp0 := mkPages_get inp months emps 0 hpos
        rw [hL] at hp0
        simp only [List.getElem?_cons_zero, Option.some.injEq] at hp0
        refine ⟨emps, months, hb, hq, hpos, ?_, ?_, ?_⟩
        · rw [← h]
          simp only [List.length_cons]
          omega
        · rw [← h]
          simp only [List.getElem?_cons_zero, Option.some.injEq]
          rw [hp0]
          rfl
        · intro i h1 h2
          rw [← h]
          obtain ⟨j, rfl⟩ : ∃ j, i = j + 1 := ⟨i - 1, by omega⟩
          have hpj := mkPages_get inp months emps (j + 1) h2
          rw [hL] at hpj
          simpa using hpj

theorem mem_condWrites {tpl : List String} {l : List (String × String)}
    {kv : String × String} (h : kv ∈ condWrites tpl l) :
    kv ∈ l ∧ kv.1 ∈ tpl := by
  induction l with
  | nil => simp [condWrites] at h
  | cons nv rest ih =>
      simp only [condWrites, List.mem_append] at h
      rcases h with h | h
      · obtain ⟨rfl, htpl⟩ := mem_condWrite h
        exact ⟨by simp, htpl⟩
      · obtain ⟨hmem, htpl⟩ := ih h
        exact ⟨List.mem_cons_of_mem _ hmem, htpl⟩

theorem condWrites_mem_of {tpl : List String} {l : List (String × String)}
    {n v : String} (h : (n, v) ∈ l) (ht : n ∈ tpl) :
    (n, v) ∈ condWrites tpl l := by
  induction l with
  | nil => simp at h
  | cons nv rest ih =>
      rcases List.mem_cons.mp h with rfl | htail
      · simp [condWrites, condWrite, ht]
      · simp only [condWrites, List.mem_append]
        exact Or.inr (ih htail)

theorem lastVal_condWrites_none {tpl : List String}
    {l : List (String × String)} {t : String}
    (h : ∀ nv ∈ l, nv.1 ≠ t) : lastVal (condWrites tpl l) t = none :=
  lastVal_eq_none (fun kv hkv => h kv (mem_condWrites hkv).1)

theorem lastVal_condWrites_unique {tpl : List String}
    {l : List (String × String)} {t v : String}
    (hmem : (t, v) ∈ l) (huniq : ∀ nv ∈ l, nv.1 = t → nv.2 = v)
    (ht : t ∈ tpl) : lastVal (condWrites tpl l) t = some v := by
  obtain ⟨w, hw⟩ := lastVal_isSome ⟨(t, v), condWrites_mem_of hmem ht, rfl⟩
  have hmem2 := (mem_condWrites (lastVal_mem hw)).1
  rw [hw]
  exact congrArg some (huniq _ hmem2 rfl)

theorem lastVal_append_none_right {xs ys : List (String × String)}
    {t : String} (h : lastVal ys t = none) :
    lastVal (xs ++ ys) t = lastVal xs t := by
  rw [lastVal_append, h]
  rfl

theorem lastVal_append_some_right {xs ys : List (String × String)}
    {t v : String} (h : lastVal ys t = some v) :
    lastVal (xs ++ ys) t = some v := by
  rw [lastVal_append, h]
  rfl

theorem numPages_pos {n : ℕ} (h : 0 < n) : 0 < numPages n := by
  unfold numPages ROWS_PER_PAGE
  omega

/-- Lines 103–147 always succeed when the required columns are present
and the quarter is valid: `fill_de9c` then reaches the page loop and (with
at least one row, hence at least one page) returns the filled pages. -/
theorem fill_de9c_eq_of {inp : FillInput} {emps : List Employee}
    {ms : ℕ × ℕ × ℕ} (hemps : buildEmployees inp.csv = .ok emps)
    (hms : quarter_months inp.quarter = .ok ms) :
    fill_de9c inp = finalize inp emps (mkPages inp ms emps) := by
  unfold fill_de9c
  rw [hemps, hms]

theorem fill_ok (inp : FillInput)
    (hcols : ∀ c ∈ requiredCols, c ∈ inp.csv.header)
    (hq : inp.quarter = 1 ∨ inp.quarter = 2 ∨ inp.quarter = 3
            ∨ inp.quarter = 4)
    (hrows : inp.csv.rows ≠ []) :
    ∃ emps pages, buildEmployees inp.csv = .ok emps
      ∧ emps.length = inp.csv.rows.length
      ∧ fill_de9c inp = .ok pages := by
  obtain ⟨emps, hemps, hlen⟩ := buildEmployees_ok hcols
  obtain ⟨ms, hms⟩ := quarter_months_ok hq
  have hpos : 0 < numPages emps.length := by
    apply numPages_pos
    rw [hlen]
    exact List.length_pos.mpr hrows
  have hmkl := mkPages_length inp ms emps
  obtain ⟨p, rest, hL⟩ : ∃ p rest, mkPages inp ms emps = p :: rest := by
    cases hc : mkPages inp ms emps with
    | nil => rw [hc] at hmkl; simp at hmkl; omega
    | cons p rest => exact ⟨p, rest, rfl⟩
  refine ⟨emps, { p with writes := p.writes
                    ++ grandWrites inp.templateNames emps
                    ++ sigWrites inp } :: rest, hemps, hlen, ?_⟩
  rw [fill_de9c_eq_of hemps hms, hL]
  rfl

theorem numPages_eq_ceil (n : ℕ) : (numPages n : ℤ) = ⌈(n : ℚ) / 7⌉ := by
  have h3 : n ≤ 7 * numPages n := by unfold numPages ROWS_PER_PAGE; omega
  have h4 : 7 * numPages n < n + 7 := by unfold numPages ROWS_PER_PAGE; omega
  have h3q : (n : ℚ) ≤ 7 * (numPages n : ℚ) := by exact_mod_cast h3
  have h4q : 7 * (numPages n : ℚ) < (n : ℚ) + 7 := by exact_mod_cast h4
  rw [eq_comm, Int.ceil_eq_iff]
  constructor
  · push_cast
    linarith
  · push_cast
    linarith

/-- The header field names (lines 161–197). -/
def headerNames : List String :=
  ["Year", "Quarter", "Employer Account No", "Date1", "Date2",
   "1st Month", "2nd Month", "3rd Month", "Page number", "Of Page number"]

/-- The per-page subtotal field names (lines 255–269). -/
def pageTotalNames : List String :=
  ["Total Subject Wages This Page", "Total PIT Wages This Page",
   "Total PIT Withheld This Page"]

/-- The grand-total field names (lines 284–298). -/
def grandNames : List String :=
  ["Grand Total Subject Wages", "Grand Total PIT Wages",
   "Grand Total PIT Withheld"]

/-- The signature-block field names (lines 305–310). -/
def sigNames : List String := ["Signature1", "0", "Phone Number", "Date5"]

/-- The row suffixes that can occur on a page (rows 1–7). -/
def rowSuffixes : List String := ["", "1", "2", "3", "4", "5", "6"]

theorem suffix_for_row_mem : ∀ r < 8, 1 ≤ r → suffix_for_row r ∈ rowSuffixes := by
  decide

/-- No per-row field name collides with a header, subtotal, grand-total or
signature field name. -/
theorem rowName_ne_fixed : ∀ b ∈ fieldBases, ∀ s ∈ rowSuffixes,
    ∀ t ∈ headerNames ++ pageTotalNames ++ grandNames ++ sigNames,
    b ++ s ≠ t := by
  decide

theorem headerPairs_names {inp : FillInput} {months : ℕ × ℕ × ℕ}
    {numPg pageIdx : ℕ} {nv : String × String}
    (h : nv ∈ headerPairs inp months numPg pageIdx) :
    nv.1 ∈ headerNames := by
  simp only [headerPairs, List.mem_cons, List.not_mem_nil, or_false] at h
  rcases h with rfl | rfl | rfl | rfl | rfl | rfl | rfl | rfl | rfl | rfl <;>
    simp [headerNames]

theorem pageTotalPairs_names {pw pp ph : PyFloat} {nv : String × String}
    (h : nv ∈ pageTotalPairs pw pp ph) : nv.1 ∈ pageTotalNames := by
  simp only [pageTotalPairs, List.mem_cons, List.not_mem_nil, or_false] at h
  rcases h with rfl | rfl | rfl <;> simp [pageTotalNames]

theorem grandPairs_names {emps : List Employee} {nv : String × String}
    (h : nv ∈ grandPairs emps) : nv.1 ∈ grandNames := by
  simp only [grandPairs, List.mem_cons, List.not_mem_nil, or_false] at h
  rcases h with rfl | rfl | rfl <;> simp [grandNames]

theorem sigPairs_names {inp : FillInput} {nv : String × String}
    (h : nv ∈ sigPairs inp) : nv.1 ∈ sigNames := by
  simp only [sigPairs, List.mem_cons, List.not_mem_nil, or_false] at h
  rcases h with rfl | rfl | rfl | rfl <;> simp [sigNames]

theorem rowPairs_names {r : ℕ} {e : Employee} {nv : String × String}
    (h : nv ∈ rowPairs r e) :
    ∃ b ∈ fieldBases, nv.1 = b ++ suffix_for_row r := by
  simp only [rowPairs, List.mem_cons, List.not_mem_nil, or_false] at h
  rcases h with rfl | rfl | rfl | rfl | rfl | rfl | rfl <;>
    exact ⟨_, by simp [fieldBases], rfl⟩

theorem clearPairs_names {r : ℕ} {nv : String × String}
    (h : nv ∈ clearPairs r) :
    (∃ b ∈ fieldBases, nv.1 = b ++ suffix_for_row r) ∧ nv.2 = "" := by
  simp only [clearPairs, List.mem_map] at h
  obtain ⟨b, hb, rfl⟩ := h
  exact ⟨⟨b, hb, rfl⟩, rfl⟩

theorem mem_rowsWrites {tpl : List String} {r0 : ℕ} {es : List Employee}
    {kv : String × String} (h : kv ∈ rowsWrites tpl r0 es) :
    ∃ r, r0 ≤ r ∧ r < r0 + es.length
      ∧ ∃ b ∈ fieldBases, kv.1 = b ++ suffix_for_row r := by
  induction es generalizing r0 with
  | nil => simp [rowsWrites] at h
  | cons e es ih =>
      simp only [rowsWrites, List.mem_append] at h
      rcases h with h | h
      · obtain ⟨hmem, -⟩ := mem_condWrites h
        obtain ⟨b, hb, hname⟩ := rowPairs_names hmem
        exact ⟨r0, le_rfl, by simp, b, hb, hname⟩
      · obtain ⟨r, hr1, hr2, b, hb, hname⟩ := ih h
        exact ⟨r, by omega, by simp at hr2 ⊢; omega, b, hb, hname⟩

theorem mem_clearWrites {tpl : List String} {k : ℕ}
    {kv : String × String} (h : kv ∈ clearWrites tpl k) :
    (∃ r, k + 1 ≤ r ∧ r < 8
      ∧ ∃ b ∈ fieldBases, kv.1 = b ++ suffix_for_row r) ∧ kv.2 = "" := by
  simp only [clearWrites, List.mem_flatten, List.mem_map] at h
  obtain ⟨l, ⟨r, hr, rfl⟩, hkv⟩ := h
  rw [List.mem_range'_1] at hr
  obtain ⟨hmem, -⟩ := mem_condWrites hkv
  obtain ⟨⟨b, hb, hname⟩, hval⟩ := clearPairs_names hmem
  exact ⟨⟨r, hr.1, by unfold ROWS_PER_PAGE at hr; omega, b, hb, hname⟩, hval⟩

theorem clearWrites_mem_of {tpl : List String} {k r : ℕ} {b : String}
    (hk : k ≤ 7) (hr1 : k < r) (hr2 : r ≤ 7) (hb : b ∈ fieldBases)
    (ht : b ++ suffix_for_row r ∈ tpl) :
    (b ++ suffix_for_row r, "") ∈ clearWrites tpl k := by
  simp only [clearWrites, List.mem_flatten, List.mem_map]
  refine ⟨condWrites tpl (clearPairs r), ⟨r, ?_, rfl⟩, ?_⟩
  · rw [List.mem_range'_1]
    unfold ROWS_PER_PAGE
    omega
  · refine condWrites_mem_of ?_ ht
    simp only [clearPairs, List.mem_map]
    exact ⟨b, hb, rfl⟩

theorem ptNames_sub : ∀ x ∈ pageTotalNames,
    x ∈ headerNames ++ pageTotalNames ++ grandNames ++ sigNames := by decide

theorem grandNames_sub : ∀ x ∈ grandNames,
    x ∈ headerNames ++ pageTotalNames ++ grandNames ++ sigNames := by decide

theorem sigNames_sub : ∀ x ∈ sigNames,
    x ∈ headerNames ++ pageTotalNames ++ grandNames ++ sigNames := by decide

theorem rowName_not_sig {b s : String} (hb : b ∈ fieldBases)
    (hs : s ∈ rowSuffixes) : b ++ s ∉ sigNames :=
  fun hmem => rowName_ne_fixed b hb s hs (b ++ s) (sigNames_sub _ hmem) rfl

theorem rowName_not_grand {b s : String} (hb : b ∈ fieldBases)
    (hs : s ∈ rowSuffixes) : b ++ s ∉ grandNames :=
  fun hmem => rowName_ne_fixed b hb s hs (b ++ s) (grandNames_sub _ hmem) rfl

theorem lastVal_sigWrites_none {inp : FillInput} {t : String}
    (h : t ∉ sigNames) : lastVal (sigWrites inp) t = none :=
  lastVal_condWrites_none (fun _ hnv he => h (he ▸ sigPairs_names hnv))

theorem lastVal_grandWrites_none {tpl : List String} {emps : List Employee}
    {t : String} (h : t ∉ grandNames) :
    lastVal (grandWrites tpl emps) t = none :=
  lastVal_condWrites_none (fun _ hnv he => h (he ▸ grandPairs_names hnv))

theorem lastVal_pageTotalWrites_none {tpl : List String} {pw pp ph : PyFloat}
    {t : String} (h : t ∉ pageTotalNames) :
    lastVal (pageTotalWrites tpl pw pp ph) t = none :=
  lastVal_condWrites_none (fun _ hnv he => h (he ▸ pageTotalPairs_names hnv))

theorem lastVal_pageTotalWrites_W {tpl : List String} {pw pp ph : PyFloat}
    (h : "Total Subject Wages This Page" ∈ tpl) :
    lastVal (pageTotalWrites tpl pw pp ph) "Total Subject Wages This Page"
      = some (fmt2 pw) := by
  apply lastVal_condWrites_unique (by simp [pageTotalPairs]) ?_ h
  intro nv hnv hn
  simp only [pageTotalPairs, List.mem_cons, List.not_mem_nil, or_false] at hnv
  rcases hnv with rfl | rfl | rfl
  · rfl
  · simp at hn
  · simp at hn

theorem lastVal_pageTotalWrites_P {tpl : List String} {pw pp ph : PyFloat}
    (h : "Total PIT Wages This Page" ∈ tpl) :
    lastVal (pageTotalWrites tpl pw pp ph) "Total PIT Wages This Page"
      = some (fmt2 pp) := by
  apply lastVal_condWrites_unique (by simp [pageTotalPairs]) ?_ h
  intro nv hnv hn
  simp only [pageTotalPairs, List.mem_cons, List.not_mem_nil, or_false] at hnv
  rcases hnv with rfl | rfl | rfl
  · simp at hn
  · rfl
  · simp at hn

theorem lastVal_pageTotalWrites_H {tpl : List String} {pw pp ph : PyFloat}
    (h : "Total PIT Withheld This Page" ∈ tpl) :
    lastVal (pageTotalWrites tpl pw pp ph) "Total PIT Withheld This Page"
      = some (fmt2 ph) := by
  apply lastVal_condWrites_unique (by simp [pageTotalPairs]) ?_ h
  intro nv hnv hn
  simp only [pageTotalPairs, List.mem_cons, List.not_mem_nil, or_false] at hnv
  rcases hnv with rfl | rfl | rfl
  · simp at hn
  · simp at hn
  · rfl

theorem lastVal_grandWrites_W {tpl : List String} {emps : List Employee}
    (h : "Grand Total Subject Wages" ∈ tpl) :
    lastVal (grandWrites tpl emps) "Grand Total Subject Wages"
      = some (fmt2 (grandW emps)) := by
  apply lastVal_condWrites_unique (by simp [grandPairs]) ?_ h
  intro nv hnv hn
  simp only [grandPairs, List.mem_cons, List.not_mem_nil, or_false] at hnv
  rcases hnv with rfl | rfl | rfl
  · rfl
  · simp at hn
  · simp at hn

theorem lastVal_grandWrites_P {tpl : List String} {emps : List Employee}
    (h : "Grand Total PIT Wages" ∈ tpl) :
    lastVal (grandWrites tpl emps) "Grand Total PIT Wages"
      = some (fmt2 (grandP emps)) := by
  apply lastVal_condWrites_unique (by simp [grandPairs]) ?_ h
  intro nv hnv hn
  simp only [grandPairs, List.mem_cons, List.not_mem_nil, or_false] at hnv
  rcases hnv with rfl | rfl | rfl
  · simp at hn
  · rfl
  · simp at hn

theorem lastVal_grandWrites_H {tpl : List String} {emps : List Employee}
    (h : "Grand Total PIT Withheld" ∈ tpl) :
    lastVal (grandWrites tpl emps) "Grand Total PIT Withheld"
      = some (fmt2 (grandH emps)) := by
  apply lastVal_condWrites_unique (by simp [grandPairs]) ?_ h
  intro nv hnv hn
  simp only [grandPairs, List.mem_cons, List.not_mem_nil, or_false] at hnv
  rcases hnv with rfl | rfl | rfl
  · simp at hn
  · simp at hn
  · rfl

theorem lastVal_clearWrites {tpl : List String} {k : ℕ} {t : String}
    (hmem : (t, "") ∈ clearWrites tpl k) :
    lastVal (clearWrites tpl k) t = some "" := by
  obtain ⟨w, hw⟩ := lastVal_isSome ⟨(t, ""), hmem, rfl⟩
  exact hw.trans (congrArg some (mem_clearWrites (lastVal_mem hw)).2)

theorem mkPage_value_totalW (inp : FillInput) (months : ℕ × ℕ × ℕ)
    (numPg pageIdx : ℕ) (page_emps : List Employee)
    (ht : "Total Subject Wages This Page" ∈ inp.templateNames) :
    (mkPage inp months numPg pageIdx page_emps).value
        "Total Subject Wages This Page" = some (fmt2 (pageW page_emps)) := by
  unfold Page.value mkPage
  simp only
  exact lastVal_append_some_right (lastVal_pageTotalWrites_W ht)

theorem mkPage_value_totalP (inp : FillInput) (months : ℕ × ℕ × ℕ)
    (numPg pageIdx : ℕ) (page_emps : List Employee)
    (ht : "Total PIT Wages This Page" ∈ inp.templateNames) :
    (mkPage inp months numPg pageIdx page_emps).value
        "Total PIT Wages This Page" = some (fmt2 (pageP page_emps)) := by
  unfold Page.value mkPage
  simp only
  exact lastVal_append_some_right (lastVal_pageTotalWrites_P ht)

theorem mkPage_value_totalH (inp : FillInput) (months : ℕ × ℕ × ℕ)
    (numPg pageIdx : ℕ) (page_emps : List Employee)
    (ht : "Total PIT Withheld This Page" ∈ inp.templateNames) :
    (mkPage inp months numPg pageIdx page_emps).value
        "Total PIT Withheld This Page" = some (fmt2 (pageH page_emps)) := by
  unfold Page.value mkPage
  simp only
  exact lastVal_append_some_right (lastVal_pageTotalWrites_H ht)

theorem headPage_value_totalW (inp : FillInput) (months : ℕ × ℕ × ℕ)
    (emps : List Employee)
    (ht : "Total Subject Wages This Page" ∈ inp.templateNames) :
    (headPage inp months emps).value "Total Subject Wages This Page"
      = some (fmt2 (pageW (chunkAt emps 0))) := by
  unfold Page.value headPage
  simp only
  rw [lastVal_append_none_right (lastVal_sigWrites_none (by decide))]
  rw [lastVal_append_none_right (lastVal_grandWrites_none (by decide))]
  exact mkPage_value_totalW inp months (numPages emps.length) 0
    (chunkAt emps 0) ht

theorem headPage_value_totalP (inp : FillInput) (months : ℕ × ℕ × ℕ)
    (emps : List Employee)
    (ht : "Total PIT Wages This Page" ∈ inp.templateNames) :
    (headPage inp months emps).value "Total PIT Wages This Page"
      = some (fmt2 (pageP (chunkAt emps 0))) := by
  unfold Page.value headPage
  simp only
  rw [lastVal_append_none_right (lastVal_sigWrites_none (by decide))]
  rw [lastVal_append_none_right (lastVal_grandWrites_none (by decide))]
  exact mkPage_value_totalP inp months (numPages emps.length) 0
    (chunkAt emps 0) ht

theorem headPage_value_totalH (inp : FillInput) (months : ℕ × ℕ × ℕ)
    (emps : List Employee)
    (ht : "Total PIT Withheld This Page" ∈ inp.templateNames) :
    (headPage inp months emps).value "Total PIT Withheld This Page"
      = some (fmt2 (pageH (chunkAt emps 0))) := by
  unfold Page.value headPage
  simp only
  rw [lastVal_append_none_right (lastVal_sigWrites_none (by decide))]
  rw [lastVal_append_none_right (lastVal_grandWrites_none (by decide))]
  exact mkPage_value_totalH inp months (numPages emps.length) 0
    (chunkAt emps 0) ht

theorem headPage_value_grandW (inp : FillInput) (months : ℕ × ℕ × ℕ)
    (emps : List Employee)
    (ht : "Grand Total Subject Wages" ∈ inp.templateNames) :
    (headPage inp months emps).value "Grand Total Subject Wages"
      = some (fmt2 (grandW emps)) := by
  unfold Page.value headPage
  simp only
  rw [lastVal_append_none_right (lastVal_sigWrites_none (by decide))]
  exact lastVal_append_some_right (lastVal_grandWrites_W ht)

theorem headPage_value_grandP (inp : FillInput) (months : ℕ × ℕ × ℕ)
    (emps : List Employee)
    (ht : "Grand Total PIT Wages" ∈ inp.templateNames) :
    (headPage inp months emps).value "Grand Total PIT Wages"
      = some (fmt2 (grandP emps)) := by
  unfold Page.value headPage
  simp only
  rw [lastVal_append_none_right (lastVal_sigWrites_none (by decide))]
  exact lastVal_append_some_right (lastVal_grandWrites_P ht)

theorem headPage_value_grandH (inp : FillInput) (months : ℕ × ℕ × ℕ)
    (emps : List Employee)
    (ht : "Grand Total PIT Withheld" ∈ inp.templateNames) :
    (headPage inp months emps).value "Grand Total PIT Withheld"
      = some (fmt2 (grandH emps)) := by
  unfold Page.value headPage
  simp only
  rw [lastVal_append_none_right (lastVal_sigWrites_none (by decide))]
  exact lastVal_append_some_right (lastVal_grandWrites_H ht)

theorem mkPage_value_blank (inp : FillInput) (months : ℕ × ℕ × ℕ)
    (numPg pageIdx : ℕ) (page_emps : List Employee) {r : ℕ} {b : String}
    (hlen : page_emps.length ≤ 7) (hr1 : page_emps.length < r) (hr2 : r ≤ 7)
    (hb : b ∈ fieldBases) (ht : b ++ suffix_for_row r ∈ inp.templateNames) :
    (mkPage inp months numPg pageIdx page_emps).value
        (b ++ suffix_for_row r) = some "" := by
  have hsuf := suffix_for_row_mem r (by omega) (by omega)
  have hne : ∀ nv ∈ pageTotalPairs (pageW page_emps) (pageP page_emps)
      (pageH page_emps), nv.1 ≠ b ++ suffix_for_row r := by
    intro nv hnv he
    exact rowName_ne_fixed b hb _ hsuf nv.1
      (ptNames_sub _ (pageTotalPairs_names hnv)) he.symm
  unfold Page.value mkPage pageTotalWrites
  simp only
  rw [lastVal_append_none_right (lastVal_condWrites_none hne)]
  exact lastVal_append_some_right
    (lastVal_clearWrites (clearWrites_mem_of hlen hr1 hr2 hb ht))

theorem headPage_value_blank (inp : FillInput) (months : ℕ × ℕ × ℕ)
    (emps : List Employee) {r : ℕ} {b : String}
    (hlen : (chunkAt emps 0).length ≤ 7)
    (hr1 : (chunkAt emps 0).length < r) (hr2 : r ≤ 7)
    (hb : b ∈ fieldBases) (ht : b ++ suffix_for_row r ∈ inp.templateNames) :
    (headPage inp months emps).value (b ++ suffix_for_row r) = some "" := by
  have hsuf := suffix_for_row_mem r (by omega) (by omega)
  unfold Page.value headPage
  simp only
  rw [lastVal_append_none_right
        (lastVal_sigWrites_none (rowName_not_sig hb hsuf))]
  rw [lastVal_append_none_right
        (lastVal_grandWrites_none (rowName_not_grand hb hsuf))]
  exact mkPage_value_blank inp months (numPages emps.length) 0
    (chunkAt emps 0) hlen hr1 hr2 hb ht

theorem PyFloat.zero_add (x : PyFloat) : PyFloat.add PyFloat.zero x = x := by
  cases x with
  | nan => rfl
  | val a =>
      obtain ⟨n, s⟩ := a
      simp [PyFloat.add, PyFloat.zero, Dec.add, Nat.zero_max]

/-- The accumulated `grand_w` is the sum of the per-page `page_w` subtotals: the loop
accumulation (a left fold) equals the list sum. -/
theorem grandW_eq_sum (emps : List Employee) :
    grandW emps = PyFloat.sum ((List.range (numPages emps.length)).map
      (fun i => pageW (chunkAt emps i))) := by
  unfold grandW
  rw [PyFloat.foldl_add_eq_sum, PyFloat.zero_add]

theorem grandP_eq_sum (emps : List Employee) :
    grandP emps = PyFloat.sum ((List.range (numPages emps.length)).map
      (fun i => pageP (chunkAt emps i))) := by
  unfold grandP
  rw [PyFloat.foldl_add_eq_sum, PyFloat.zero_add]

theorem grandH_eq_sum (emps : List Employee) :
    grandH emps = PyFloat.sum ((List.range (numPages emps.length)).map
      (fun i => pageH (chunkAt emps i))) := by
  unfold grandH
  rw [PyFloat.foldl_add_eq_sum, PyFloat.zero_add]

theorem chunkAt_length_le (emps : List Employee) (i : ℕ) :
    (chunkAt emps i).length ≤ 7 := by
  unfold chunkAt ROWS_PER_PAGE
  simp [List.length_take, List.length_drop]

/-- When the employee count is not a multiple of 7, the last page holds
exactly `count % 7` employees. -/
theorem chunkAt_last_length (emps : List Employee)
    (hmod : emps.length % 7 ≠ 0) :
    (chunkAt emps (numPages emps.length - 1)).length = emps.length % 7 := by
  unfold chunkAt numPages ROWS_PER_PAGE
  simp only [List.length_take, List.length_drop]
  omega

theorem buildEmployees_length {csv : Csv} {emps : List Employee}
    (h : buildEmployees csv = .ok emps) :
    emps.length = csv.rows.length := by
  unfold buildEmployees at h
  split at h
  · simp at h
  · exact exceptMap_length h

/-- The first page keeps the template's own field names (its rename
suffix is empty). -/
theorem headPage_fieldNames (inp : FillInput) (months : ℕ × ℕ × ℕ)
    (emps : List Employee) :
    (headPage inp months emps).fieldNames = inp.templateNames := by
  unfold headPage Page.fieldNames mkPage
  simp

/-- Pages after the first carry every template name with the page tag
appended. -/
theorem mkPage_fieldNames_tag (inp : FillInput) (months : ℕ × ℕ × ℕ)
    (numPg i : ℕ) (page_emps : List Employee) (hi : i ≠ 0) :
    (mkPage inp months numPg i page_emps).fieldNames
      = inp.templateNames.map (fun n => n ++ pageTag (i + 1)) := by
  unfold mkPage Page.fieldNames
  simp [hi]

/-- A convenience builder for concrete `fill_de9c` inputs: the varying
parts (CSV, template field names, quarter) with fixed header/signature
parameters. -/
def mkInput (hdr : List String) (rows : List (List Cell))
    (tpl : List String) (q : ℤ) : FillInput :=
  { csv := ⟨hdr, rows⟩, templateNames := tpl, year_full := 2024,
    quarter := q, acct := "14503726", quarter_end := "06/30/24",
    sig_name := "E PEREZ", sig_title := "PRESIDENT",
    sig_phone := "818-618-1851", sig_date := "07/01/24" }

/-- A CSV with the required columns and zero employee rows. -/
def c1Input : FillInput := mkInput requiredCols [] [] 2

/-- A CSV whose header lacks the `Total Subject Wages` column. -/
def c2CexInput : FillInput :=
  mkInput ["SSN", "First Name", "Last Name", "PIT Wages", "PIT Withheld"]
    [[some "123", some "ANN", some "LEE", some "1.00", some "2.00"]] [] 1

/-- A one-row CSV with all required columns (and no `Middle Name`
column). -/
def c2WitInput : FillInput :=
  mkInput requiredCols
    [[some "123", some "ANN", some "LEE", some "10.00", some "10.00",
      some "1.00"]] [] 1

/-- Another zero-row CSV with the required columns. -/
def c3CexInput : FillInput := mkInput requiredCols [] ["SSN"] 1

/-- An eight-row CSV (eight employees span two pages). -/
def c3WitInput : FillInput :=
  mkInput requiredCols (List.replicate 8 []) [] 3

/-- A third zero-row CSV with the required columns, against a template
holding the grand-total fields. -/
def c4CexInput : FillInput := mkInput requiredCols [] grandNames 2

/-- A one-row CSV against a template with the subtotal and grand-total
fields. -/
def c4WitInput : FillInput :=
  mkInput requiredCols
    [[some "1", some "A", some "B", some "2.00", some "3.00", some "4.00"]]
    (pageTotalNames ++ grandNames) 4

/-- An eight-row CSV against a two-name template. -/
def c5WitInput : FillInput :=
  mkInput requiredCols (List.replicate 8 [])
    ["SSN", "Employer Account No"] 1

/-- A one-row CSV whose `Total Subject Wages` cell is missing (pandas
NaN) and whose `PIT Withheld` cell is unparseable. -/
def c6Input : FillInput :=
  mkInput requiredCols
    [[some "123-45-6789", some "ANN", some "LEE", none, some "10.00",
      some "oops"]] pageTotalNames 1

/-- A three-row CSV (one partial page) against a template holding the
row-4 SSN field. -/
def c7WitInput : FillInput :=
  mkInput requiredCols (List.replicate 3 []) ["SSN3"] 1

/-- C8: `quarter_months` returns (1,2,3), (4,5,6), (7,8,9), (10,11,12)
for quarters 1–4 and raises `ValueError` for every other integer input,
in particular 0 and 5 (see the witness). -/
theorem C8_quarter_months :
    quarter_months 1 = .ok (1, 2, 3) ∧ quarter_months 2 = .ok (4, 5, 6)
      ∧ quarter_months 3 = .ok (7, 8, 9)
      ∧ quarter_months 4 = .ok (10, 11, 12)
      ∧ ∀ q : ℤ, q ≠ 1 → q ≠ 2 → q ≠ 3 → q ≠ 4 →
          quarter_months q = .error "Quarter must be 1–4" := by
  refine ⟨rfl, rfl, rfl, rfl, ?_⟩
  intro q h1 h2 h3 h4
  unfold quarter_months
  rw [if_neg h1, if_neg h2, if_neg h3, if_neg h4]

/-- Witness for C8: quarters 0 and 5 are rejected. -/
theorem C8_witness :
    quarter_months 0 = .error "Quarter must be 1–4"
      ∧ quarter_months 5 = .error "Quarter must be 1–4" :=
  ⟨C8_quarter_months.2.2.2.2 0 (by decide) (by decide) (by decide)
     (by decide),
   C8_quarter_months.2.2.2.2 5 (by decide) (by decide) (by decide)
     (by decide)⟩

/-- C9: `load_defaults` never raises — it is a total function of the file
state — and when the settings file is absent (`none`) or cannot be read or
parsed (`some none`), it returns the built-in defaults, which carry
exactly the six settings keys. -/
theorem C9_load_defaults :
    load_defaults none = builtinDefaults
      ∧ load_defaults (some none) = builtinDefaults
      ∧ builtinDefaults.map Prod.fst
          = ["year", "quarter", "employer_account", "signature_name",
             "signature_title", "signature_phone"] :=
  ⟨rfl, rfl, rfl⟩

/-- C10: `suffix_for_row` is injective on row positions 1–7, so within a
page the seven row positions address pairwise-distinct field names for
each semantic column (each `FIELD_MAP` base). -/
theorem C10_suffix_injective :
    (∀ i < 8, ∀ j < 8, 1 ≤ i → 1 ≤ j →
        suffix_for_row i = suffix_for_row j → i = j)
      ∧ ∀ b ∈ fieldBases, ∀ i < 8, ∀ j < 8, 1 ≤ i → 1 ≤ j → i ≠ j →
          b ++ suffix_for_row i ≠ b ++ suffix_for_row j :=
  ⟨by decide, by decide⟩

/-- Witness for C10 at concrete rows 1, 2, 3 and the SSN column. -/
theorem C10_witness :
    ("SSN" ++ suffix_for_row 1 ≠ "SSN" ++ suffix_for_row 2)
      ∧ (suffix_for_row 2 = suffix_for_row 3 → (2 : ℕ) = 3) :=
  ⟨C10_suffix_injective.2 "SSN" (by decide) 1 (by decide) 2 (by decide)
     (by decide) (by decide) (by decide),
   C10_suffix_injective.1 2 (by decide) 3 (by decide) (by decide)
     (by decide)⟩

/-- C1 (code bug): on a CSV with the required columns and zero employee
rows, `fill_de9c` computes `num_pages = ceil(0/7) = 0`, builds no page,
and crashes with `IndexError` at `filled_pages[0]` (line 278) — no output
document is produced, contradicting the spec's requirement of one page
with all rows blank. -/
theorem C1_zero_rows_aborts :
    fill_de9c c1Input = Except.error "IndexError: list index out of range"
      ∧ numPages 0 = 0 :=
  ⟨rfl, rfl⟩

/-- C6 (code bug): a *missing* money cell does not contribute zero — it
reaches the sum as the string `"nan"` (pandas NaN rendered by
`astype(str)`), which `float` parses as NaN, poisoning the page subtotal,
which is then written as `"nan"`.  An *unparseable* cell (`"oops"`) is
swallowed by the `try`/`except` and does contribute zero, and the run
still succeeds — but the claimed subtotal for the wages column would be
`fmt2 0 = "0.00"`, not `"nan"`. -/
theorem C6_nan_subtotal :
    ∃ pages p1, fill_de9c c6Input = .ok pages ∧ pages[0]? = some p1
      ∧ p1.value "Total Subject Wages This Page" = some "nan"
      ∧ p1.value "Total PIT Wages This Page" = some "10.00"
      ∧ p1.value "Total PIT Withheld This Page" = some "0.00"
      ∧ fmt2 PyFloat.zero = "0.00" :=
  ⟨_, _, rfl, rfl, rfl, rfl, rfl, rfl⟩

/-- Counterexample for C2: a CSV without the `Total Subject Wages` column
aborts `fill_de9c` with a `KeyError` at the money-cleaning step (line
107); no output document is produced. -/
theorem C2_counterexample :
    fill_de9c c2CexInput = Except.error "KeyError: Total Subject Wages" :=
  rfl

/-- C2 as amended: a missing *required* CSV column aborts the run; with
the six required columns present (the `Middle Name` column may be absent —
it is not among `requiredCols`), a valid quarter and at least one row,
`fill_de9c` completes and produces an output document, whatever the
template's field set. -/
theorem C2_amended (inp : FillInput)
    (hcols : ∀ c ∈ requiredCols, c ∈ inp.csv.header)
    (hq : inp.quarter = 1 ∨ inp.quarter = 2 ∨ inp.quarter = 3
            ∨ inp.quarter = 4)
    (hrows : inp.csv.rows ≠ []) :
    ∃ pages, fill_de9c inp = .ok pages := by
  obtain ⟨emps, pages, -, -, hfill⟩ := fill_ok inp hcols hq hrows
  exact ⟨pages, hfill⟩

/-- Witness for C2: a one-row CSV without a `Middle Name` column and an
empty template still produces an output. -/
theorem C2_amended_witness :
    (∀ c ∈ requiredCols, c ∈ c2WitInput.csv.header)
      ∧ ∃ pages, fill_de9c c2WitInput = .ok pages :=
  ⟨by decide, C2_amended c2WitInput (by decide) (by decide) (by decide)⟩

/-- Counterexample for C3: at employee count 0 the code does not produce
`ceil(0/7) = 0` pages of output — it produces no output at all, aborting
with `IndexError` before the write. -/
theorem C3_counterexample :
    fill_de9c c3CexInput
      = Except.error "IndexError: list index out of range" :=
  rfl

/-- C3 as amended: for every input with the required columns, a valid
quarter and at least one employee row, the number of output pages equals
`ceil(N/7)`; at `N = 0` the run aborts with an `IndexError` (see the
counterexample). -/
theorem C3_amended (inp : FillInput)
    (hcols : ∀ c ∈ requiredCols, c ∈ inp.csv.header)
    (hq : inp.quarter = 1 ∨ inp.quarter = 2 ∨ inp.quarter = 3
            ∨ inp.quarter = 4)
    (hrows : inp.csv.rows ≠ []) :
    ∃ pages, fill_de9c inp = .ok pages
      ∧ (pages.length : ℤ) = ⌈(inp.csv.rows.length : ℚ) / 7⌉ := by
  obtain ⟨emps, pages, hemps, hlen, hfill⟩ := fill_ok inp hcols hq hrows
  obtain ⟨emps2, months, hemps2, -, -, hplen, -, -⟩ := fill_inv hfill
  rw [hemps] at hemps2
  cases hemps2
  refine ⟨pages, hfill, ?_⟩
  rw [hplen, hlen]
  exact numPages_eq_ceil _

/-- Witness for C3: eight employees produce two pages. -/
theorem C3_amended_witness :
    ∃ pages, fill_de9c c3WitInput = .ok pages
      ∧ (pages.length : ℤ) = ⌈(c3WitInput.csv.rows.length : ℚ) / 7⌉ :=
  C3_amended c3WitInput (by decide) (by decide) (by decide)

/-- Counterexample for C4: on the zero-employee input the claimed
equality is vacuously broken — `fill_de9c` aborts with `IndexError`
before writing any total. -/
theorem C4_counterexample :
    fill_de9c c4CexInput
      = Except.error "IndexError: list index out of range" :=
  rfl

/-- C4 as amended: for every input with at least one employee row (plus
the required columns and a valid quarter), and for each monetary column,
every page carries `fmt2` of its subtotal and the first page carries
`fmt2` of the sum of exactly those subtotals as the grand total.  The
zero-employee input aborts before any total is written (see the
counterexample). -/
theorem C4_amended (inp : FillInput)
    (hcols : ∀ c ∈ requiredCols, c ∈ inp.csv.header)
    (hq : inp.quarter = 1 ∨ inp.quarter = 2 ∨ inp.quarter = 3
            ∨ inp.quarter = 4)
    (hrows : inp.csv.rows ≠ [])
    (ht1 : "Total Subject Wages This Page" ∈ inp.templateNames)
    (ht2 : "Total PIT Wages This Page" ∈ inp.templateNames)
    (ht3 : "Total PIT Withheld This Page" ∈ inp.templateNames)
    (hg1 : "Grand Total Subject Wages" ∈ inp.templateNames)
    (hg2 : "Grand Total PIT Wages" ∈ inp.templateNames)
    (hg3 : "Grand Total PIT Withheld" ∈ inp.templateNames) :
    ∃ emps pages, buildEmployees inp.csv = .ok emps
      ∧ fill_de9c inp = .ok pages
      ∧ (∀ i pk, pages[i]? = some pk →
          pk.value "Total Subject Wages This Page"
              = some (fmt2 (pageW (chunkAt emps i)))
            ∧ pk.value "Total PIT Wages This Page"
              = some (fmt2 (pageP (chunkAt emps i)))
            ∧ pk.value "Total PIT Withheld This Page"
              = some (fmt2 (pageH (chunkAt emps i))))
      ∧ ∀ p1, pages[0]? = some p1 →
          p1.value "Grand Total Subject Wages"
              = some (fmt2 (PyFloat.sum
                  ((List.range (numPages emps.length)).map
                    (fun i => pageW (chunkAt emps i)))))
            ∧ p1.value "Grand Total PIT Wages"
              = some (fmt2 (PyFloat.sum
                  ((List.range (numPages emps.length)).map
                    (fun i => pageP (chunkAt emps i)))))
            ∧ p1.value "Grand Total PIT Withheld"
              = some (fmt2 (PyFloat.sum
                  ((List.range (numPages emps.length)).map
                    (fun i => pageH (chunkAt emps i))))) := by
  obtain ⟨emps, pages, hemps, hlen, hfill⟩ := fill_ok inp hcols hq hrows
  obtain ⟨emps2, months, hemps2, -, -, hplen, h0, hmk⟩ := fill_inv hfill
  rw [hemps] at hemps2
  cases hemps2
  refine ⟨emps, pages, hemps, hfill, ?_, ?_⟩
  · intro i pk hpk
    have hlt : i < pages.length := by
      by_contra hge
      rw [List.getElem?_eq_none (by omega)] at hpk
      simp at hpk
    rcases Nat.eq_zero_or_pos i with rfl | hipos
    · rw [h0] at hpk
      cases hpk
      exact ⟨headPage_value_totalW inp months emps ht1,
             headPage_value_totalP inp months emps ht2,
             headPage_value_totalH inp months emps ht3⟩
    · have hmki := hmk i (by omega) (by rw [← hplen]; exact hlt)
      rw [hmki] at hpk
      cases hpk
      exact ⟨mkPage_value_totalW inp months _ i (chunkAt emps i) ht1,
             mkPage_value_totalP inp months _ i (chunkAt emps i) ht2,
             mkPage_value_totalH inp months _ i (chunkAt emps i) ht3⟩
  · intro p1 hp1
    rw [h0] at hp1
    cases hp1
    refine ⟨?_, ?_, ?_⟩
    · rw [headPage_value_grandW inp months emps hg1, grandW_eq_sum]
    · rw [headPage_value_grandP inp months emps hg2, grandP_eq_sum]
    · rw [headPage_value_grandH inp months emps hg3, grandH_eq_sum]

/-- Witness for C4 at a concrete one-row input. -/
theorem C4_amended_witness :
    ∃ emps pages, buildEmployees c4WitInput.csv = .ok emps
      ∧ fill_de9c c4WitInput = .ok pages
      ∧ (∀ i pk, pages[i]? = some pk →
          pk.value "Total Subject Wages This Page"
              = some (fmt2 (pageW (chunkAt emps i)))
            ∧ pk.value "Total PIT Wages This Page"
              = some (fmt2 (pageP (chunkAt emps i)))
            ∧ pk.value "Total PIT Withheld This Page"
              = some (fmt2 (pageH (chunkAt emps i))))
      ∧ ∀ p1, pages[0]? = some p1 →
          p1.value "Grand Total Subject Wages"
              = some (fmt2 (PyFloat.sum
                  ((List.range (numPages emps.length)).map
                    (fun i => pageW (chunkAt emps i)))))
            ∧ p1.value "Grand Total PIT Wages"
              = some (fmt2 (PyFloat.sum
                  ((List.range (numPages emps.length)).map
                    (fun i => pageP (chunkAt emps i)))))
            ∧ p1.value "Grand Total PIT Withheld"
              = some (fmt2 (PyFloat.sum
                  ((List.range (numPages emps.length)).map
                    (fun i => pageH (chunkAt emps i))))) :=
  C4_amended c4WitInput (by decide) (by decide) (by decide) (by decide)
    (by decide) (by decide) (by decide) (by decide) (by decide)

/-- C5: in every successful output with at least `k ≥ 2` pages, each
field name on page `k` is the original template name with the page tag
`__p{k}` appended, and — whenever no template name itself ends in that
page tag (true of the DE-9C template, see the witness) — is distinct from
every field name on page 1. -/
theorem C5_page_names_distinct (inp : FillInput) (pages : List Page)
    (h : fill_de9c inp = .ok pages) (k : ℕ) (hk : 2 ≤ k)
    (pk p1 : Page) (hpk : pages[k - 1]? = some pk)
    (hp1 : pages[0]? = some p1)
    (hsuf : ∀ n ∈ inp.templateNames,
        (pageTag k).data.isSuffixOf n.data = false) :
    (∀ a ∈ pk.fieldNames, ∃ m ∈ inp.templateNames, a = m ++ pageTag k)
      ∧ ∀ a ∈ pk.fieldNames, a ∉ p1.fieldNames := by
  obtain ⟨emps, months, -, -, hpos, hplen, h0, hmk⟩ := fill_inv h
  rw [h0] at hp1
  cases hp1
  have hlt : k - 1 < pages.length := by
    by_contra hge
    rw [List.getElem?_eq_none (by omega)] at hpk
    simp at hpk
  have hmkk := hmk (k - 1) (by omega) (by rw [← hplen]; exact hlt)
  rw [hmkk] at hpk
  cases hpk
  have hk1 : k - 1 + 1 = k := by omega
  have hfn : (mkPage inp months (numPages emps.length) (k - 1)
      (chunkAt emps (k - 1))).fieldNames
      = inp.templateNames.map (fun n => n ++ pageTag k) := by
    rw [mkPage_fieldNames_tag _ _ _ _ _ (by omega), hk1]
  constructor
  · intro a ha
    rw [hfn] at ha
    obtain ⟨m, hm, rfl⟩ := List.mem_map.mp ha
    exact ⟨m, hm, rfl⟩
  · intro a ha hmem1
    rw [headPage_fieldNames] at hmem1
    rw [hfn] at ha
    obtain ⟨m, hm, rfl⟩ := List.mem_map.mp ha
    have hT : (pageTag k).data.isSuffixOf (m ++ pageTag k).data :=
      List.isSuffixOf_iff_suffix.mpr
        (by rw [String.data_append]; exact List.suffix_append _ _)
    have hF := hsuf _ hmem1
    rw [hF] at hT
    exact Bool.false_ne_true hT

/-- Witness for C5: eight employees, two pages, a two-name template. -/
theorem C5_witness :
    ∃ pages pk p1, fill_de9c c5WitInput = .ok pages
      ∧ pages[2 - 1]? = some pk ∧ pages[0]? = some p1
      ∧ ((∀ a ∈ pk.fieldNames,
            ∃ m ∈ c5WitInput.templateNames, a = m ++ pageTag 2)
          ∧ ∀ a ∈ pk.fieldNames, a ∉ p1.fieldNames) :=
  ⟨_, _, _, rfl, rfl, rfl,
   C5_page_names_distinct c5WitInput _ rfl 2 (by decide) _ _ rfl rfl
     (by decide)⟩

/-- C7: in every successful output whose last page holds fewer than 7
employees (employee count not a multiple of 7), every per-row field of
every row slot past the last employee that is present on the template is
set to the empty string on the last page. -/
theorem C7_blank_rows_cleared (inp : FillInput) (pages : List Page)
    (pl : Page) (h : fill_de9c inp = .ok pages)
    (hlast : pages[pages.length - 1]? = some pl)
    (hmod : inp.csv.rows.length % 7 ≠ 0)
    (r : ℕ) (hr1 : inp.csv.rows.length % 7 < r) (hr2 : r ≤ 7)
    (b : String) (hb : b ∈ fieldBases)
    (ht : b ++ suffix_for_row r ∈ inp.templateNames) :
    pl.value (b ++ suffix_for_row r) = some "" := by
  obtain ⟨emps, months, hemps, -, hpos, hplen, h0, hmk⟩ := fill_inv h
  have hel : emps.length = inp.csv.rows.length := buildEmployees_length hemps
  have hmod2 : emps.length % 7 ≠ 0 := by rw [hel]; exact hmod
  have hclen := chunkAt_last_length emps hmod2
  have hr1e : (chunkAt emps (numPages emps.length - 1)).length < r := by
    rw [hclen, hel]
    exact hr1
  by_cases hnp : numPages emps.length = 1
  · have h00 : pages.length - 1 = 0 := by omega
    rw [h00, h0] at hlast
    cases hlast
    have h0e : numPages emps.length - 1 = 0 := by omega
    rw [h0e] at hr1e
    exact headPage_value_blank inp months emps (chunkAt_length_le emps 0)
      hr1e hr2 hb ht
  · have hidx : pages.length - 1 = numPages emps.length - 1 := by omega
    rw [hidx] at hlast
    have hmkl := hmk (numPages emps.length - 1) (by omega) (by omega)
    rw [hmkl] at hlast
    cases hlast
    exact mkPage_value_blank inp months _ _ _ (chunkAt_length_le emps _)
      hr1e hr2 hb ht

/-- Witness for C7: three employees on one page; row 4's SSN field is
cleared. -/
theorem C7_witness :
    ∃ pages pl, fill_de9c c7WitInput = .ok pages
      ∧ pages[pages.length - 1]? = some pl
      ∧ pl.value ("SSN" ++ suffix_for_row 4) = some "" :=
  ⟨_, _, rfl, rfl,
   C7_blank_rows_cleared c7WitInput _ _ rfl rfl (by decide) 4 (by decide)
     (by decide) "SSN" (by decide) (by decide)⟩
